import Mathlib

/-!
Verification of the LogBuilder multi-tenant log-collection backend.

The Go sources are shallowly embedded: machine time (`time.Time`,
`time.Duration`) is modelled as `Int` nanoseconds, Go strings as Lean
`String` (all relevant data is ASCII), `[]interface{}` argument lists as
lists of a small sum type, and fallible Go functions as `Except`/`Option`.
Goroutines spawned by a handler are modelled as deferred actions returned
alongside the handler's synchronous result, so that interleavings where a
goroutine runs only after the HTTP response can be examined explicitly.
-/

namespace LogBuilder

/-! ## Data model (internal/models/log.go) -/

/-- A single log entry (`models.LogEntry`).  `fields` is the ordered
string-to-string metadata mapping; `userID` is the owning tenant. -/
structure LogEntry where
  id : Int := 0
  timestamp : Int := 0
  source : String := ""
  level : String := ""
  message : String := ""
  service : String := ""
  fields : List (String × String) := []
  rawMessage : String := ""
  createdAt : Int := 0
  userID : Int := 0
  deriving Repr, DecidableEq

/-- Incoming single-log payload (`models.IngestRequest`). -/
structure IngestRequest where
  timestamp : Option Int := none
  source : String := ""
  level : String := ""
  message : String := ""
  service : String := ""
  fields : List (String × String) := []
  deriving Repr, DecidableEq

/-- Incoming batch payload (`models.BatchIngestRequest`). -/
structure BatchIngestRequest where
  logs : List IngestRequest := []
  deriving Repr, DecidableEq

/-- Go `strings.ToUpper` on the ASCII fragment used by this code base
(defined over the character list so that it evaluates by `decide`). -/
def goToUpper (s : String) : String := ⟨s.data.map Char.toUpper⟩

/-- Go `strings.ToLower` on the ASCII fragment used by this code base. -/
def goToLower (s : String) : String := ⟨s.data.map Char.toLower⟩

/-- The enumerated log levels, the key set of the Go `validLevels` map. -/
def validLevels : List String := ["DEBUG", "INFO", "WARN", "ERROR", "FATAL"]

/-- `IngestRequest.Validate`: required fields, then the level must be in
the enumerated set after `strings.ToUpper` (ASCII suffices here). -/
def validateIngest (req : IngestRequest) : Except String Unit :=
  if req.source = "" then .error "source is required"
  else if req.level = "" then .error "level is required"
  else if req.message = "" then .error "message is required"
  else if validLevels.contains (goToUpper req.level) then .ok ()
  else .error ("invalid log level: " ++ req.level)

/-- `IngestRequest.ToLogEntry`: timestamp defaults to the ingestion
wall-clock `now` when absent, the level is upper-cased, `createdAt` is
stamped with `now`. -/
def toLogEntry (now : Int) (req : IngestRequest) : LogEntry :=
  { timestamp := match req.timestamp with
      | some t => t
      | none => now
    source := req.source
    level := goToUpper req.level
    message := req.message
    service := req.service
    fields := req.fields
    rawMessage := ""
    createdAt := now }

/-! ## Query filter (internal/models/query.go, extended version) -/

/-- Structured log-query filter (`models.QueryRequest`).  Times are `Int`
nanoseconds; `lastMinutes`/`lastHours`/`lastDays` are the relative-window
helpers; zero values mean "absent" exactly as in Go. -/
structure QueryRequest where
  level : String := ""
  source : String := ""
  service : String := ""
  message : String := ""
  levels : List String := []
  sources : List String := []
  services : List String := []
  excludeLevel : String := ""
  excludeLevels : List String := []
  excludeSource : String := ""
  excludeSources : List String := []
  messageContains : String := ""
  messageNotContains : String := ""
  startTime : Option Int := none
  endTime : Option Int := none
  lastMinutes : Int := 0
  lastHours : Int := 0
  lastDays : Int := 0
  limit : Int := 0
  offset : Int := 0
  sortBy : String := ""
  sortOrder : String := ""
  deriving Repr, DecidableEq

/-- `time.Minute` in nanoseconds. -/
def minuteNs : Int := 60000000000

/-- `time.Hour` in nanoseconds. -/
def hourNs : Int := 3600000000000

/-- Stage of `QueryRequest.Validate`: the single `level` filter must be an
enumerated value and is normalized to uppercase. -/
def checkLevelField (q : QueryRequest) : Except String QueryRequest :=
  if q.level = "" then .ok q
  else if validLevels.contains (goToUpper q.level) then
    .ok { q with level := goToUpper q.level }
  else .error ("invalid log level: " ++ q.level ++ " (must be DEBUG, INFO, WARN, ERROR, or FATAL)")

/-- Stage of `Validate`: the `levels` array is checked element-wise (the Go
loop returns on the first invalid element) and normalized to uppercase. -/
def checkLevelsArray (q : QueryRequest) : Except String QueryRequest :=
  match q.levels.find? (fun l => !(validLevels.contains (goToUpper l))) with
  | some l => .error ("invalid log level in levels array: " ++ l)
  | none => .ok { q with levels := q.levels.map goToUpper }

/-- Stage of `Validate`: `exclude_level` checked and normalized. -/
def checkExcludeLevel (q : QueryRequest) : Except String QueryRequest :=
  if q.excludeLevel = "" then .ok q
  else if validLevels.contains (goToUpper q.excludeLevel) then
    .ok { q with excludeLevel := goToUpper q.excludeLevel }
  else .error ("invalid exclude_level: " ++ q.excludeLevel)

/-- Stage of `Validate`: `exclude_levels` checked element-wise and
normalized. -/
def checkExcludeLevels (q : QueryRequest) : Except String QueryRequest :=
  match q.excludeLevels.find? (fun l => !(validLevels.contains (goToUpper l))) with
  | some l => .error ("invalid log level in exclude_levels: " ++ l)
  | none => .ok { q with excludeLevels := q.excludeLevels.map goToUpper }

/-- Stage of `Validate`: the relative-window helpers, kept in the Go
evaluation order — minutes, then hours, then days, each positive window
overwriting the previously computed start time. -/
def applyTimeHelpers (now : Int) (q : QueryRequest) : QueryRequest :=
  let st := if 0 < q.lastMinutes then some (now - q.lastMinutes * minuteNs) else q.startTime
  let st := if 0 < q.lastHours then some (now - q.lastHours * hourNs) else st
  let st := if 0 < q.lastDays then some (now - q.lastDays * 24 * hourNs) else st
  { q with startTime := st }

/-- Stage of `Validate`: explicit start/end times must be ordered
(`q.StartTime.After(*q.EndTime)` rejects). -/
def checkTimeRange (q : QueryRequest) : Except String QueryRequest :=
  match q.startTime, q.endTime with
  | some s, some e => if e < s then .error "start_time must be before end_time" else .ok q
  | _, _ => .ok q

/-- Stage of `Validate`: legacy `message` is copied into
`message_contains` when the latter is empty. -/
def applyMessageCompat (q : QueryRequest) : QueryRequest :=
  if q.message ≠ "" ∧ q.messageContains = "" then { q with messageContains := q.message } else q

/-- Stage of `Validate`: limit defaults to 100 when non-positive, and must
not exceed 1000. -/
def checkLimit (q : QueryRequest) : Except String QueryRequest :=
  let q := if q.limit ≤ 0 then { q with limit := 100 } else q
  if 1000 < q.limit then .error "limit cannot exceed 1000" else .ok q

/-- Stage of `Validate`: offset must be non-negative. -/
def checkOffset (q : QueryRequest) : Except String QueryRequest :=
  if q.offset < 0 then .error "offset cannot be negative" else .ok q

/-- The enumerated sortable fields (`validSortFields` in Go). -/
def validSortFields : List String := ["timestamp", "level", "source", "service"]

/-- Stage of `Validate`: sort field defaults to `timestamp` and must be in
the enumerated set (checked on the lower-cased value, stored unchanged,
exactly as in Go). -/
def checkSortBy (q : QueryRequest) : Except String QueryRequest :=
  let q := if q.sortBy = "" then { q with sortBy := "timestamp" } else q
  if validSortFields.contains (goToLower q.sortBy) then .ok q
  else .error ("invalid sort_by field: " ++ q.sortBy ++ " (must be timestamp, level, source, or service)")

/-- Stage of `Validate`: sort order defaults to DESC, is upper-cased, and
must be ASC or DESC. -/
def checkSortOrder (q : QueryRequest) : Except String QueryRequest :=
  let q := if q.sortOrder = "" then { q with sortOrder := "DESC" } else q
  let q := { q with sortOrder := goToUpper q.sortOrder }
  if q.sortOrder = "ASC" ∨ q.sortOrder = "DESC" then .ok q
  else .error ("invalid sort_order: " ++ q.sortOrder ++ " (must be ASC or DESC)")

/-- `QueryRequest.Validate` (postgres-side extended version): the stages in
the exact statement order of the Go function; an error at any stage is the
Go early `return`. -/
def validateQuery (now : Int) (q : QueryRequest) : Except String QueryRequest :=
  (checkLevelField q).bind fun q =>
  (checkLevelsArray q).bind fun q =>
  (checkExcludeLevel q).bind fun q =>
  (checkExcludeLevels q).bind fun q =>
  (checkTimeRange (applyTimeHelpers now q)).bind fun q =>
  (checkLimit (applyMessageCompat q)).bind fun q =>
  (checkOffset q).bind fun q =>
  (checkSortBy q).bind fun q =>
  checkSortOrder q

/-! ## Query compiler (`QueryRequest.ToSQL`, internal/models/query.go)

The Go function builds condition strings with `fmt.Sprintf` templates whose
only varying part is the placeholder number, and a parallel positional
argument list.  The embedding keeps the two apart: `Cond` carries exactly
the placeholder numbers (the only data interpolated into the SQL text) and
`renderCond` reproduces the `Sprintf` templates verbatim, while the filter
values go into the `SqlArg` list. -/

/-- One element of the Go `args []interface{}` list. -/
inductive SqlArg where
  | int (i : Int)
  | str (s : String)
  | time (t : Int)
  deriving Repr, DecidableEq

/-- One condition of the WHERE clause; the payload is the placeholder
number (or numbers, for the `IN` families) used in the rendered text. -/
inductive Cond where
  | userId (n : Nat)
  | levelEq (n : Nat)
  | sourceEq (n : Nat)
  | serviceEq (n : Nat)
  | levelIn (ns : List Nat)
  | sourceIn (ns : List Nat)
  | serviceIn (ns : List Nat)
  | levelNe (n : Nat)
  | levelNotIn (ns : List Nat)
  | sourceNe (n : Nat)
  | sourceNotIn (ns : List Nat)
  | msgIlike (n : Nat)
  | msgNotIlike (n : Nat)
  | tsGe (n : Nat)
  | tsLe (n : Nat)
  deriving Repr, DecidableEq

/-- The placeholder text `fmt.Sprintf("$%d", n)`. -/
def placeholder (n : Nat) : String := "$" ++ toString n

/-- Comma-joined placeholder list, `strings.Join(placeholders, ", ")`. -/
def placeholderList (ns : List Nat) : String :=
  String.intercalate ", " (ns.map placeholder)

/-- The exact condition templates of the Go `ToSQL`. -/
def renderCond : Cond → String
  | .userId n => "user_id = " ++ placeholder n
  | .levelEq n => "level = " ++ placeholder n
  | .sourceEq n => "source = " ++ placeholder n
  | .serviceEq n => "service = " ++ placeholder n
  | .levelIn ns => "level IN (" ++ placeholderList ns ++ ")"
  | .sourceIn ns => "source IN (" ++ placeholderList ns ++ ")"
  | .serviceIn ns => "service IN (" ++ placeholderList ns ++ ")"
  | .levelNe n => "level != " ++ placeholder n
  | .levelNotIn ns => "level NOT IN (" ++ placeholderList ns ++ ")"
  | .sourceNe n => "source != " ++ placeholder n
  | .sourceNotIn ns => "source NOT IN (" ++ placeholderList ns ++ ")"
  | .msgIlike n => "message ILIKE " ++ placeholder n
  | .msgNotIlike n => "message NOT ILIKE " ++ placeholder n
  | .tsGe n => "timestamp >= " ++ placeholder n
  | .tsLe n => "timestamp <= " ++ placeholder n

/-- The placeholder numbers referenced by one condition. -/
def condIdxs : Cond → List Nat
  | .userId n => [n]
  | .levelEq n => [n]
  | .sourceEq n => [n]
  | .serviceEq n => [n]
  | .levelIn ns => ns
  | .sourceIn ns => ns
  | .serviceIn ns => ns
  | .levelNe n => [n]
  | .levelNotIn ns => ns
  | .sourceNe n => [n]
  | .sourceNotIn ns => ns
  | .msgIlike n => [n]
  | .msgNotIlike n => [n]
  | .tsGe n => [n]
  | .tsLe n => [n]

/-- The placeholder numbers of a condition list, in order. -/
def idxsOf : List Cond → List Nat
  | [] => []
  | c :: cs => condIdxs c ++ idxsOf cs

/-- The `conditions`/`args`/`argIndex` triple threaded through `ToSQL`. -/
structure Build where
  conds : List Cond
  args : List SqlArg
  argIndex : Nat
  deriving Repr, DecidableEq

/-- One single-placeholder block of `ToSQL`: append the condition using the
current `argIndex`, append one argument, increment `argIndex`. -/
def addCond (b : Build) (mk : Nat → Cond) (a : SqlArg) : Build :=
  { conds := b.conds ++ [mk b.argIndex]
    args := b.args ++ [a]
    argIndex := b.argIndex + 1 }

/-- One `IN`-family block of `ToSQL`: the loop appends one placeholder and
one argument per value, then appends a single `IN` condition. -/
def addCondList (b : Build) (mk : List Nat → Cond) (vals : List String) : Build :=
  { conds := b.conds ++ [mk (List.range' b.argIndex vals.length)]
    args := b.args ++ vals.map SqlArg.str
    argIndex := b.argIndex + vals.length }

/-- The two time blocks of `ToSQL` (`if q.StartTime != nil { ... }`):
append the comparison condition when the time is present. -/
def addTimeCond (b : Build) (mk : Nat → Cond) (o : Option Int) : Build :=
  match o with
  | some t => addCond b mk (SqlArg.time t)
  | none => b

/-- `QueryRequest.ToSQL` (postgres-side extended version): tenant condition
first, then the filter blocks in the Go statement order. -/
def toSQLBuild (q : QueryRequest) (userID : Int) : Build :=
  let b : Build := ⟨[], [], 1⟩
  let b := addCond b Cond.userId (SqlArg.int userID)
  let b := if q.level != "" then addCond b Cond.levelEq (SqlArg.str q.level) else b
  let b := if q.source != "" then addCond b Cond.sourceEq (SqlArg.str q.source) else b
  let b := if q.service != "" then addCond b Cond.serviceEq (SqlArg.str q.service) else b
  let b := if 0 < q.levels.length then addCondList b Cond.levelIn q.levels else b
  let b := if 0 < q.sources.length then addCondList b Cond.sourceIn q.sources else b
  let b := if 0 < q.services.length then addCondList b Cond.serviceIn q.services else b
  let b := if q.excludeLevel != "" then addCond b Cond.levelNe (SqlArg.str q.excludeLevel) else b
  let b := if 0 < q.excludeLevels.length then addCondList b Cond.levelNotIn q.excludeLevels else b
  let b := if q.excludeSource != "" then addCond b Cond.sourceNe (SqlArg.str q.excludeSource) else b
  let b := if 0 < q.excludeSources.length then addCondList b Cond.sourceNotIn q.excludeSources else b
  let b := if q.messageContains != "" then
    addCond b Cond.msgIlike (SqlArg.str ("%" ++ q.messageContains ++ "%")) else b
  let b := if q.messageNotContains != "" then
    addCond b Cond.msgNotIlike (SqlArg.str ("%" ++ q.messageNotContains ++ "%")) else b
  let b := addTimeCond b Cond.tsGe q.startTime
  let b := addTimeCond b Cond.tsLe q.endTime
  b

/-- The (conditions, args) pair returned by `ToSQL`. -/
def toSQL (q : QueryRequest) (userID : Int) : List Cond × List SqlArg :=
  ((toSQLBuild q userID).conds, (toSQLBuild q userID).args)

/-- The rendered WHERE clause, `strings.Join(conditions, " AND ")`. -/
def whereClause (q : QueryRequest) (userID : Int) : String :=
  String.intercalate " AND " (((toSQL q userID).1).map renderCond)

/-- The shape of a filter: which scalar filters are present and how long
each list filter is.  The compiled condition list depends only on this. -/
structure QShape where
  hasLevel : Bool
  hasSource : Bool
  hasService : Bool
  nLevels : Nat
  nSources : Nat
  nServices : Nat
  hasExLevel : Bool
  nExLevels : Nat
  hasExSource : Bool
  nExSources : Nat
  hasMsgC : Bool
  hasMsgNC : Bool
  hasStart : Bool
  hasEnd : Bool
  deriving Repr, DecidableEq

/-- The shape of a concrete filter. -/
def shape (q : QueryRequest) : QShape :=
  ⟨q.level != "", q.source != "", q.service != "",
   q.levels.length, q.sources.length, q.services.length,
   q.excludeLevel != "", q.excludeLevels.length,
   q.excludeSource != "", q.excludeSources.length,
   q.messageContains != "", q.messageNotContains != "",
   q.startTime.isSome, q.endTime.isSome⟩

/-- Compiler invariant: the placeholder numbers referenced by the built
conditions are exactly `$1 .. $(length args)` in order, and the running
`argIndex` is the next free number. -/
def BuildInv (b : Build) : Prop :=
  idxsOf b.conds = List.range' 1 b.args.length ∧ b.argIndex = b.args.length + 1

/-- Compiler invariant: the tenant condition heads the condition list and
the tenant id heads the argument list. -/
def HeadInv (uid : Int) (b : Build) : Prop :=
  b.conds.head? = some (Cond.userId 1) ∧ b.args.head? = some (SqlArg.int uid)

/-- Two builds that agree on everything the condition text is made of. -/
def PairInv (b1 b2 : Build) : Prop :=
  b1.conds = b2.conds ∧ b1.argIndex = b2.argIndex

/-! ## Denotation of the compiled predicate

`evalCond` is the SQL meaning of one rendered condition over one stored
row, with placeholders resolved against the positional argument list
(`$n` is `args[n-1]`).  `ILIKE` is case-insensitive SQL LIKE. -/

/-- A stored `logs` row as seen by the WHERE clause. -/
structure LogRow where
  userID : Int := 0
  timestamp : Int := 0
  level : String := ""
  source : String := ""
  service : String := ""
  message : String := ""
  deriving Repr, DecidableEq

/-- SQL LIKE matching over character lists, case-insensitively (`ILIKE`):
`%` matches any run, `_` any single character. -/
def likeChars : List Char → List Char → Bool
  | [], [] => true
  | [], _ :: _ => false
  | '%' :: ps, [] => likeChars ps []
  | '%' :: ps, c :: cs => likeChars ps (c :: cs) || likeChars ('%' :: ps) cs
  | '_' :: _, [] => false
  | '_' :: ps, _ :: cs => likeChars ps cs
  | _ :: _, [] => false
  | p :: ps, c :: cs => (p.toLower == c.toLower) && likeChars ps cs
  termination_by p s => p.length + s.length
  decreasing_by all_goals simp_arith

/-- `value ILIKE pattern` for strings. -/
def sqlIlike (pattern s : String) : Bool := likeChars pattern.data s.data

/-- Resolve placeholder `n` to its positional argument. -/
def argAt (args : List SqlArg) (n : Nat) : Option SqlArg := args.get? (n - 1)

/-- The SQL truth value of one condition at one row. -/
def evalCond (args : List SqlArg) (row : LogRow) : Cond → Bool
  | .userId n => match argAt args n with
    | some (.int v) => row.userID == v
    | _ => false
  | .levelEq n => match argAt args n with
    | some (.str v) => row.level == v
    | _ => false
  | .sourceEq n => match argAt args n with
    | some (.str v) => row.source == v
    | _ => false
  | .serviceEq n => match argAt args n with
    | some (.str v) => row.service == v
    | _ => false
  | .levelIn ns => ns.any fun n => match argAt args n with
    | some (.str v) => row.level == v
    | _ => false
  | .sourceIn ns => ns.any fun n => match argAt args n with
    | some (.str v) => row.source == v
    | _ => false
  | .serviceIn ns => ns.any fun n => match argAt args n with
    | some (.str v) => row.service == v
    | _ => false
  | .levelNe n => match argAt args n with
    | some (.str v) => row.level != v
    | _ => false
  | .levelNotIn ns => ns.all fun n => match argAt args n with
    | some (.str v) => row.level != v
    | _ => false
  | .sourceNe n => match argAt args n with
    | some (.str v) => row.source != v
    | _ => false
  | .sourceNotIn ns => ns.all fun n => match argAt args n with
    | some (.str v) => row.source != v
    | _ => false
  | .msgIlike n => match argAt args n with
    | some (.str v) => sqlIlike v row.message
    | _ => false
  | .msgNotIlike n => match argAt args n with
    | some (.str v) => !(sqlIlike v row.message)
    | _ => false
  | .tsGe n => match argAt args n with
    | some (.time t) => decide (t ≤ row.timestamp)
    | _ => false
  | .tsLe n => match argAt args n with
    | some (.time t) => decide (row.timestamp ≤ t)
    | _ => false

/-- A row satisfies the compiled predicate when it satisfies every
AND-joined condition. -/
def matchesCompiled (q : QueryRequest) (userID : Int) (row : LogRow) : Bool :=
  ((toSQL q userID).1).all (evalCond (toSQL q userID).2 row)

/-! ## Ingestion gateway (cmd/ingester/main.go, queue-publishing version)

The handlers' externally visible storage activity is recorded as a list of
`Effect`s: an append of serialized entries to the `logs:incoming` stream,
or a direct database insert (which these handlers never issue — the
Processing Consumer persists).  `publishOk` stands for the availability of
the queue (`PublishLog`/`PublishLogs` erroring or not). -/

/-- A storage side effect of a handler. -/
inductive Effect where
  | publishQueue (logs : List LogEntry)
  | insertDB (logs : List LogEntry)
  deriving Repr, DecidableEq

/-- The parts of a handler's JSON reply that the claims talk about. -/
structure HttpResponse where
  code : Nat
  status : String := ""
  errorMsg : String := ""
  validationErrors : List String := []
  deriving Repr, DecidableEq

/-- `entry.UserID = userID.(int)`: stamp the authenticated tenant. -/
def stampUser (uid : Int) (e : LogEntry) : LogEntry := { e with userID := uid }

/-- `IngestLog`: auth guard, JSON bind, validation, canonicalization, then
publish of the single entry to the stream (HTTP 202 "queued"). -/
def ingestLog (userID : Option Int) (body : Option IngestRequest) (now : Int)
    (publishOk : Bool) : List Effect × HttpResponse :=
  match userID with
  | none => ([], { code := 401, errorMsg := "Authentication required" })
  | some uid =>
    match body with
    | none => ([], { code := 400, errorMsg := "Invalid JSON format" })
    | some req =>
      match validateIngest req with
      | .error _ => ([], { code := 400, errorMsg := "Validation failed" })
      | .ok _ =>
        let entry := stampUser uid (toLogEntry now req)
        if publishOk then
          ([Effect.publishQueue [entry]], { code := 202, status := "queued" })
        else
          ([], { code := 500, errorMsg := "Failed to queue log for processing" })

/-- The `IngestBatch` validation loop: canonicalized entries for the valid
items and a `"Log %d: %s"` message per invalid index, in order. -/
def batchScan (uid : Int) (now : Int) : Nat → List IngestRequest → List LogEntry × List String
  | _, [] => ([], [])
  | i, r :: rs =>
    let rest := batchScan uid now (i + 1) rs
    match validateIngest r with
    | .error e => (rest.1, ("Log " ++ toString i ++ ": " ++ e) :: rest.2)
    | .ok _ => (stampUser uid (toLogEntry now r) :: rest.1, rest.2)

/-- `IngestBatch`: auth guard, JSON bind, emptiness and size guards, the
all-or-nothing validation loop, then a single batch publish (HTTP 202). -/
def ingestBatch (userID : Option Int) (body : Option BatchIngestRequest) (now : Int)
    (publishOk : Bool) : List Effect × HttpResponse :=
  match userID with
  | none => ([], { code := 401, errorMsg := "Authentication required" })
  | some uid =>
    match body with
    | none => ([], { code := 400, errorMsg := "Invalid JSON format" })
    | some req =>
      if req.logs.length = 0 then
        ([], { code := 400, errorMsg := "No logs provided in batch" })
      else if 1000 < req.logs.length then
        ([], { code := 400, errorMsg := "Batch size too large (max 1000 logs)" })
      else
        let scanned := batchScan uid now 0 req.logs
        if scanned.2 ≠ [] then
          ([], { code := 400, errorMsg := "Validation failed for some logs",
                 validationErrors := scanned.2 })
        else if publishOk then
          ([Effect.publishQueue scanned.1], { code := 202, status := "queued" })
        else
          ([], { code := 500, errorMsg := "Failed to queue logs for processing" })

/-- `ProcessorService.processLog`: the Processing Consumer's handler
persists one record to the database. -/
def processLog (e : LogEntry) : Effect := Effect.insertDB [e]

/-! ## Queue consumer (internal/storage/redis.go)

A delivered stream message carries `Values["log"]` when that field exists
and is a string.  `unmarshal` stands for `json.Unmarshal` into a
`LogEntry`; `handler` is the persistence callback. -/

/-- A delivered stream message: its id and the extracted `log` field. -/
structure QueueMessage where
  id : String
  log : Option String
  deriving Repr, DecidableEq

/-- What `processMessage` did with one message: whether it was
acknowledged, whether the handler was invoked (and with what), and the
returned error, mirroring the four paths of the Go function. -/
structure ProcResult where
  acked : Bool
  handled : Option LogEntry
  result : Except String Unit
  deriving Repr

/-- `RedisClient.processMessage`: malformed envelope → ack and error
(dropped); unmarshal failure → ack and error (dropped); handler error → no
ack and error (left pending); success → ack. -/
def processMessage (unmarshal : String → Option LogEntry)
    (handler : LogEntry → Except String Unit) (m : QueueMessage) : ProcResult :=
  match m.log with
  | none => ⟨true, none, .error "invalid message format"⟩
  | some s =>
    match unmarshal s with
    | none => ⟨true, none, .error "failed to unmarshal log"⟩
    | some entry =>
      match handler entry with
      | .error e => ⟨false, some entry, .error ("handler failed: " ++ e)⟩
      | .ok _ => ⟨true, some entry, .ok ()⟩

/-- One `ConsumeLogStream` read iteration over a delivered batch: every
message is processed; a per-message error is only logged, never stops the
loop. -/
def consumeResults (unmarshal : String → Option LogEntry)
    (handler : LogEntry → Except String Unit) (msgs : List QueueMessage) : List ProcResult :=
  msgs.map (processMessage unmarshal handler)

/-- The messages still in the consumer-group pending list after the
iteration: exactly the delivered messages that were not acknowledged. -/
def pendingAfter (unmarshal : String → Option LogEntry)
    (handler : LogEntry → Except String Unit) (msgs : List QueueMessage) : List QueueMessage :=
  msgs.filter fun m => !(processMessage unmarshal handler m).acked

/-! ## Credential store and cache (internal/storage/auth.go, redis.go,
internal/handlers/auth.go)

The database is a list of users and API-key rows; the Redis cache is an
association list from key string to tenant id.  A goroutine spawned by a
handler (`go h.redisClient.InvalidateCachedAPIKey(...)`, cache population
after a miss) becomes a `Deferred` action returned by the synchronous part
of the handler; `runDeferred` is the scheduler eventually running them.
The best-effort asynchronous `last_used_at` touch is irrelevant to the
claims and is not tracked. -/

/-- A `users` row (the fields the join uses). -/
structure UserRec where
  id : Int
  username : String := ""
  isActive : Bool := true
  deriving Repr, DecidableEq

/-- An `api_keys` row. -/
structure APIKeyRec where
  id : Int
  userID : Int
  apiKey : String
  name : String := ""
  isActive : Bool := true
  deriving Repr, DecidableEq

/-- Database plus cache state shared by the auth handlers. -/
structure AuthState where
  users : List UserRec := []
  keys : List APIKeyRec := []
  cache : List (String × Int) := []
  deriving Repr, DecidableEq

/-- An asynchronous action a handler has spawned but not awaited. -/
inductive Deferred where
  | invalidateKey (apiKey : String)
  | cacheKey (apiKey : String) (userID : Int)
  deriving Repr, DecidableEq

/-- `GetCachedAPIKey`: Redis `GET apikey:<key>`. -/
def getCachedAPIKey (st : AuthState) (k : String) : Option Int :=
  (st.cache.find? fun p => p.1 == k).map (·.2)

/-- `AuthStorage.ValidateAPIKey`: join an active key row to its active
user. -/
def validateAPIKeyDB (st : AuthState) (k : String) : Option UserRec :=
  match st.keys.find? (fun r => r.apiKey == k && r.isActive) with
  | none => none
  | some kr => st.users.find? fun u => u.id == kr.userID && u.isActive

/-- Outcome of the API-key middleware for one request. -/
inductive AuthOutcome where
  | authorized (userID : Int)
  | unauthorized
  deriving Repr, DecidableEq

/-- `APIKeyAuthMiddleware`: cache first (hit → no storage round trip);
on miss validate from the database, rejecting unknown/inactive keys; on
database success spawn the asynchronous cache population. -/
def apiKeyAuth (st : AuthState) (key : String) : AuthOutcome × List Deferred :=
  match getCachedAPIKey st key with
  | some uid => (.authorized uid, [])
  | none =>
    match validateAPIKeyDB st key with
    | none => (.unauthorized, [])
    | some u => (.authorized u.id, [Deferred.cacheKey key u.id])

/-- `AuthStorage.DeactivateAPIKey`'s UPDATE: clear `is_active` on the rows
matching both the key id and the owner. -/
def deactivateKeys (st : AuthState) (keyID uid : Int) : AuthState :=
  { st with keys := st.keys.map fun k =>
      if k.id == keyID && k.userID == uid then { k with isActive := false } else k }

/-- `AuthHandler.DeleteAPIKey`, synchronous part: list the caller's keys,
spawn (not await) the cache invalidation for the matching key, then run the
deactivation UPDATE and answer.  The returned `Deferred` list is what the
fired goroutine will eventually do. -/
def deleteAPIKey (st : AuthState) (uid : Int) (keyID : Int) :
    AuthState × List Deferred × HttpResponse :=
  let userKeys := st.keys.filter fun k => k.userID == uid
  let defs := match userKeys.find? (fun k => k.id == keyID) with
    | some k => [Deferred.invalidateKey k.apiKey]
    | none => []
  if st.keys.any (fun k => k.id == keyID && k.userID == uid) then
    (deactivateKeys st keyID uid, defs, { code := 200, status := "API key deleted successfully" })
  else
    (st, defs, { code := 500, errorMsg := "Failed to delete API key" })

/-- Eventually run the spawned goroutines: Redis `DEL` for an
invalidation, Redis `SET` for a cache population. -/
def runDeferred (st : AuthState) : List Deferred → AuthState
  | [] => st
  | d :: ds =>
    let st := match d with
      | .invalidateKey k => { st with cache := st.cache.filter fun p => p.1 != k }
      | .cacheKey k uid => { st with cache := (k, uid) :: st.cache.filter fun p => p.1 != k }
    runDeferred st ds

/-- A concrete key string of the generated form (68 characters). -/
def demoKey : String :=
  "lak_0000000000000000000000000000000000000000000000000000000000000000"

/-- Concrete state for the stale-cache scenario: one active user owning
one active key whose mapping is cached (within its 15-minute TTL). -/
def demoState : AuthState :=
  { users := [{ id := 1, username := "alice" }]
    keys := [{ id := 1, userID := 1, apiKey := demoKey, name := "ci" }]
    cache := [(demoKey, 1)] }

/-! ## API-key generation and masking (internal/storage/auth.go,
internal/handlers/auth.go) -/

/-- Lower-case hexadecimal digits, as produced by `hex.EncodeToString`. -/
def hexDigits : List Char := "0123456789abcdef".data

/-- The hex digit of a value below 16. -/
def hexDigit (n : Nat) : Char := hexDigits.getD n '0'

/-- `hex.EncodeToString`: two digits per byte. -/
def hexEncode (bytes : List Nat) : String :=
  ⟨bytes.foldr (fun b acc => hexDigit (b / 16) :: hexDigit (b % 16) :: acc) []⟩

/-- The key string built by `CreateAPIKey`: `"lak_" + hex(randomBytes)`,
with 32 random bytes in the Go code. -/
def apiKeyString (bytes : List Nat) : String := "lak_" ++ hexEncode bytes

/-- The Go masking expression `key[:8] + "..." + key[len(key)-4:]`
(byte slicing; all characters here are ASCII). -/
def goMask (s : String) : String :=
  ⟨s.data.take 8⟩ ++ "..." ++ ⟨s.data.drop (s.data.length - 4)⟩

/-- One element of the `GetAPIKeys` JSON reply. -/
structure APIKeyResponse where
  id : Int
  apiKey : String
  name : String := ""
  isActive : Bool := true
  deriving Repr, DecidableEq

/-- `GetAPIKeys` response building: every returned `api_key` field is the
masked form, never the stored value. -/
def getAPIKeysMasked (keys : List APIKeyRec) : List APIKeyResponse :=
  keys.map fun k =>
    { id := k.id, apiKey := goMask k.apiKey, name := k.name, isActive := k.isActive }

end LogBuilder

namespace LogBuilder

/-! ## Claim C9 -/

/-- C9: a submitted record is accepted exactly when source and message are
present and the uppercase form of its level is one of the five enumerated
values, and the stored level of every accepted record is the uppercase
normalization of the submitted level. -/
theorem level_validation_normalization (req : IngestRequest) (now : Int) :
    (validateIngest req = .ok () ↔
      (req.source ≠ "" ∧ req.message ≠ "" ∧ goToUpper req.level ∈ validLevels)) ∧
    (toLogEntry now req).level = goToUpper req.level := by
  constructor
  · constructor
    · intro h
      unfold validateIngest at h
      split at h
      · exact absurd h (by simp)
      · split at h
        · exact absurd h (by simp)
        · split at h
          · exact absurd h (by simp)
          · split at h
            · refine ⟨by assumption, by assumption, ?_⟩
              exact List.elem_iff.mp (by assumption)
            · exact absurd h (by simp)
    · rintro ⟨hs, hm, hl⟩
      have hlv : req.level ≠ "" := by
        intro h0
        rw [h0] at hl
        exact absurd hl (by decide)
      have hc : validLevels.contains (goToUpper req.level) = true :=
        List.elem_eq_true_of_mem hl
      simp [validateIngest, hs, hm, hlv, hc, hl]
  · rfl

/-! ## Claim C7 -/

theorem bindStage_ok {α β : Type} {r : Except String α} {g : α → Except String β}
    {out : β} (h : r.bind g = .ok out) : ∃ v, r = .ok v ∧ g v = .ok out := by
  cases r with
  | ok v => exact ⟨v, rfl, h⟩
  | error e => simp [Except.bind] at h

theorem checkLevelField_pres {q q' : QueryRequest} (h : checkLevelField q = .ok q') :
    q'.lastMinutes = q.lastMinutes ∧ q'.lastHours = q.lastHours ∧ q'.lastDays = q.lastDays := by
  unfold checkLevelField at h
  split at h
  · cases h; exact ⟨rfl, rfl, rfl⟩
  · split at h
    · cases h; exact ⟨rfl, rfl, rfl⟩
    · cases h

theorem checkLevelsArray_pres {q q' : QueryRequest} (h : checkLevelsArray q = .ok q') :
    q'.lastMinutes = q.lastMinutes ∧ q'.lastHours = q.lastHours ∧ q'.lastDays = q.lastDays := by
  unfold checkLevelsArray at h
  split at h
  · cases h
  · cases h; exact ⟨rfl, rfl, rfl⟩

theorem checkExcludeLevel_pres {q q' : QueryRequest} (h : checkExcludeLevel q = .ok q') :
    q'.lastMinutes = q.lastMinutes ∧ q'.lastHours = q.lastHours ∧ q'.lastDays = q.lastDays := by
  unfold checkExcludeLevel at h
  split at h
  · cases h; exact ⟨rfl, rfl, rfl⟩
  · split at h
    · cases h; exact ⟨rfl, rfl, rfl⟩
    · cases h

theorem checkExcludeLevels_pres {q q' : QueryRequest} (h : checkExcludeLevels q = .ok q') :
    q'.lastMinutes = q.lastMinutes ∧ q'.lastHours = q.lastHours ∧ q'.lastDays = q.lastDays := by
  unfold checkExcludeLevels at h
  split at h
  · cases h
  · cases h; exact ⟨rfl, rfl, rfl⟩

theorem applyTimeHelpers_startTime (now : Int) (q : QueryRequest) :
    (applyTimeHelpers now q).startTime =
      if 0 < q.lastDays then some (now - q.lastDays * 24 * hourNs)
      else if 0 < q.lastHours then some (now - q.lastHours * hourNs)
      else if 0 < q.lastMinutes then some (now - q.lastMinutes * minuteNs)
      else q.startTime := rfl

theorem checkTimeRange_ok {q q' : QueryRequest} (h : checkTimeRange q = .ok q') : q' = q := by
  unfold checkTimeRange at h
  split at h
  · split at h
    · cases h
    · cases h; rfl
  · cases h; rfl

theorem applyMessageCompat_startTime (q : QueryRequest) :
    (applyMessageCompat q).startTime = q.startTime := by
  unfold applyMessageCompat
  split <;> rfl

theorem checkLimit_startTime {q q' : QueryRequest} (h : checkLimit q = .ok q') :
    q'.startTime = q.startTime := by
  unfold checkLimit at h
  simp only [] at h
  split at h <;> split at h <;> (cases h <;> rfl)

theorem checkOffset_ok {q q' : QueryRequest} (h : checkOffset q = .ok q') : q' = q := by
  unfold checkOffset at h
  split at h
  · cases h
  · cases h; rfl

theorem checkSortBy_startTime {q q' : QueryRequest} (h : checkSortBy q = .ok q') :
    q'.startTime = q.startTime := by
  unfold checkSortBy at h
  simp only [] at h
  split at h <;> split at h <;> (cases h <;> rfl)

theorem checkSortOrder_startTime {q q' : QueryRequest} (h : checkSortOrder q = .ok q') :
    q'.startTime = q.startTime := by
  unfold checkSortOrder at h
  simp only [] at h
  split at h <;> split at h <;> (cases h <;> rfl)

/-- C7: when several relative windows are supplied at once, `Validate`
computes the start time in the evaluation order minutes, hours, days, each
positive window overwriting the previous value, so days win over hours and
hours over minutes. -/
theorem relative_window_precedence (now : Int) (q q' : QueryRequest)
    (h : validateQuery now q = .ok q') :
    (0 < q.lastDays → q'.startTime = some (now - q.lastDays * 24 * hourNs)) ∧
    (¬ 0 < q.lastDays → 0 < q.lastHours → q'.startTime = some (now - q.lastHours * hourNs)) ∧
    (¬ 0 < q.lastDays → ¬ 0 < q.lastHours → 0 < q.lastMinutes →
      q'.startTime = some (now - q.lastMinutes * minuteNs)) := by
  unfold validateQuery at h
  obtain ⟨q1, h1, h⟩ := bindStage_ok h
  obtain ⟨q2, h2, h⟩ := bindStage_ok h
  obtain ⟨q3, h3, h⟩ := bindStage_ok h
  obtain ⟨q4, h4, h⟩ := bindStage_ok h
  obtain ⟨q5, h5, h⟩ := bindStage_ok h
  obtain ⟨q6, h6, h⟩ := bindStage_ok h
  obtain ⟨q7, h7, h⟩ := bindStage_ok h
  obtain ⟨q8, h8, h⟩ := bindStage_ok h
  have e1 := checkLevelField_pres h1
  have e2 := checkLevelsArray_pres h2
  have e3 := checkExcludeLevel_pres h3
  have e4 := checkExcludeLevels_pres h4
  have elast : q4.lastMinutes = q.lastMinutes ∧ q4.lastHours = q.lastHours ∧
      q4.lastDays = q.lastDays := by
    exact ⟨by rw [e4.1, e3.1, e2.1, e1.1], by rw [e4.2.1, e3.2.1, e2.2.1, e1.2.1],
      by rw [e4.2.2, e3.2.2, e2.2.2, e1.2.2]⟩
  have hq5 : q5.startTime = (applyTimeHelpers now q4).startTime := by
    rw [checkTimeRange_ok h5]
  have hq6 := checkLimit_startTime h6
  have hq7 := checkOffset_ok h7
  have hq8 := checkSortBy_startTime h8
  have hq9 := checkSortOrder_startTime h
  have hstart : q'.startTime = (applyTimeHelpers now q4).startTime := by
    rw [hq9, hq8, hq7, hq6, applyMessageCompat_startTime, hq5]
  rw [hstart, applyTimeHelpers_startTime, elast.1, elast.2.1, elast.2.2]
  refine ⟨fun hd => ?_, fun hnd hh => ?_, fun hnd hnh hm => ?_⟩
  · simp [hd]
  · simp [hnd, hh]
  · simp [hnd, hnh, hm]

/-- C7 witness: with minutes, hours and days all positive the validated
filter's start time is the one computed from `last_days`. -/
theorem relative_window_precedence_witness :
    (0 : Int) < (1 : Int) ∧
    ({ lastMinutes := 5, lastHours := 2, lastDays := 1, startTime := some (-86400000000000),
       limit := 100, sortBy := "timestamp", sortOrder := "DESC" } : QueryRequest).startTime =
      some ((0 : Int) - 1 * 24 * hourNs) :=
  ⟨by decide,
    (relative_window_precedence 0 { lastMinutes := 5, lastHours := 2, lastDays := 1 }
      { lastMinutes := 5, lastHours := 2, lastDays := 1, startTime := some (-86400000000000),
        limit := 100, sortBy := "timestamp", sortOrder := "DESC" } (by rfl)).1 (by decide)⟩

/-! ## Compiler invariants shared by C3 and C8 -/

theorem idxsOf_append (l l' : List Cond) : idxsOf (l ++ l') = idxsOf l ++ idxsOf l' := by
  induction l with
  | nil => rfl
  | cons c cs ih => simp [idxsOf, ih]

theorem buildInv_addCond {b : Build} {mk : Nat → Cond} {a : SqlArg}
    (hmk : ∀ n, condIdxs (mk n) = [n]) (h : BuildInv b) : BuildInv (addCond b mk a) := by
  obtain ⟨h1, h2⟩ := h
  constructor
  · show idxsOf (b.conds ++ [mk b.argIndex]) = _
    rw [idxsOf_append, h1]
    simp only [idxsOf, hmk, List.append_nil, addCond, List.length_append,
      List.length_cons, List.length_nil]
    rw [h2, List.range'_concat]
    simp [Nat.add_comm]
  · simp [addCond, h2, List.length_append]

theorem buildInv_addCondList {b : Build} {mk : List Nat → Cond} {vals : List String}
    (hmk : ∀ ns, condIdxs (mk ns) = ns) (h : BuildInv b) : BuildInv (addCondList b mk vals) := by
  obtain ⟨h1, h2⟩ := h
  constructor
  · show idxsOf (b.conds ++ [mk (List.range' b.argIndex vals.length)]) = _
    rw [idxsOf_append, h1]
    simp only [idxsOf, hmk, List.append_nil, addCondList, List.length_append, List.length_map]
    rw [h2]
    have hap := List.range'_append 1 b.args.length vals.length 1
    simp only [Nat.one_mul] at hap
    rw [Nat.add_comm 1 b.args.length] at hap
    rw [hap, Nat.add_comm vals.length b.args.length]
  · simp [addCondList, h2, List.length_append, List.length_map]
    omega

theorem buildInv_iteAdd {c : Prop} [Decidable c] {b : Build} {mk : Nat → Cond} {a : SqlArg}
    (hmk : ∀ n, condIdxs (mk n) = [n]) (h : BuildInv b) :
    BuildInv (if c then addCond b mk a else b) := by
  split
  · exact buildInv_addCond hmk h
  · exact h

theorem buildInv_iteAddList {c : Prop} [Decidable c] {b : Build} {mk : List Nat → Cond}
    {vals : List String} (hmk : ∀ ns, condIdxs (mk ns) = ns) (h : BuildInv b) :
    BuildInv (if c then addCondList b mk vals else b) := by
  split
  · exact buildInv_addCondList hmk h
  · exact h

theorem buildInv_addTimeCond {b : Build} {mk : Nat → Cond} {o : Option Int}
    (hmk : ∀ n, condIdxs (mk n) = [n]) (h : BuildInv b) : BuildInv (addTimeCond b mk o) := by
  cases o
  · exact h
  · exact buildInv_addCond hmk h

theorem buildInv_toSQLBuild (q : QueryRequest) (uid : Int) : BuildInv (toSQLBuild q uid) := by
  unfold toSQLBuild
  simp only []
  apply buildInv_addTimeCond
  exact fun n => rfl
  apply buildInv_addTimeCond
  exact fun n => rfl
  apply buildInv_iteAdd
  exact fun n => rfl
  apply buildInv_iteAdd
  exact fun n => rfl
  apply buildInv_iteAddList
  exact fun ns => rfl
  apply buildInv_iteAdd
  exact fun n => rfl
  apply buildInv_iteAddList
  exact fun ns => rfl
  apply buildInv_iteAdd
  exact fun n => rfl
  apply buildInv_iteAddList
  exact fun ns => rfl
  apply buildInv_iteAddList
  exact fun ns => rfl
  apply buildInv_iteAddList
  exact fun ns => rfl
  apply buildInv_iteAdd
  exact fun n => rfl
  apply buildInv_iteAdd
  exact fun n => rfl
  apply buildInv_iteAdd
  exact fun n => rfl
  apply buildInv_addCond
  exact fun n => rfl
  exact ⟨rfl, rfl⟩

theorem head?_append_some {α : Type} {l l' : List α} {a : α} (h : l.head? = some a) :
    (l ++ l').head? = some a := by
  rw [List.head?_append, h]
  rfl

theorem headInv_addCond {uid : Int} {b : Build} {mk : Nat → Cond} {a : SqlArg}
    (h : HeadInv uid b) : HeadInv uid (addCond b mk a) :=
  ⟨head?_append_some h.1, head?_append_some h.2⟩

theorem headInv_addCondList {uid : Int} {b : Build} {mk : List Nat → Cond} {vals : List String}
    (h : HeadInv uid b) : HeadInv uid (addCondList b mk vals) :=
  ⟨head?_append_some h.1, head?_append_some h.2⟩

theorem headInv_iteAdd {c : Prop} [Decidable c] {uid : Int} {b : Build} {mk : Nat → Cond}
    {a : SqlArg} (h : HeadInv uid b) : HeadInv uid (if c then addCond b mk a else b) := by
  split
  · exact headInv_addCond h
  · exact h

theorem headInv_iteAddList {c : Prop} [Decidable c] {uid : Int} {b : Build}
    {mk : List Nat → Cond} {vals : List String} (h : HeadInv uid b) :
    HeadInv uid (if c then addCondList b mk vals else b) := by
  split
  · exact headInv_addCondList h
  · exact h

theorem headInv_addTimeCond {uid : Int} {b : Build} {mk : Nat → Cond} {o : Option Int}
    (h : HeadInv uid b) : HeadInv uid (addTimeCond b mk o) := by
  cases o
  · exact h
  · exact headInv_addCond h

theorem headInv_toSQLBuild (q : QueryRequest) (uid : Int) : HeadInv uid (toSQLBuild q uid) := by
  unfold toSQLBuild
  simp only []
  apply headInv_addTimeCond
  apply headInv_addTimeCond
  apply headInv_iteAdd
  apply headInv_iteAdd
  apply headInv_iteAddList
  apply headInv_iteAdd
  apply headInv_iteAddList
  apply headInv_iteAdd
  apply headInv_iteAddList
  apply headInv_iteAddList
  apply headInv_iteAddList
  apply headInv_iteAdd
  apply headInv_iteAdd
  apply headInv_iteAdd
  exact ⟨rfl, rfl⟩

/-! ## Claim C3 -/

/-- C3: the compiled predicate always starts with the tenant-id equality
condition bound to the first argument, no filter can remove or override
it, and a row of a different tenant never satisfies the compiled
predicate. -/
theorem tenant_isolation (q : QueryRequest) (uid : Int) (row : LogRow)
    (h : row.userID ≠ uid) :
    ((toSQL q uid).1).head? = some (Cond.userId 1) ∧
    ((toSQL q uid).2).head? = some (SqlArg.int uid) ∧
    matchesCompiled q uid row = false := by
  obtain ⟨hc, ha⟩ := headInv_toSQLBuild q uid
  refine ⟨hc, ha, ?_⟩
  unfold matchesCompiled
  obtain ⟨cs, hcs⟩ : ∃ cs, (toSQL q uid).1 = Cond.userId 1 :: cs := by
    cases hl : (toSQLBuild q uid).conds with
    | nil =>
      rw [hl] at hc
      exact absurd hc (by simp)
    | cons c cs =>
      rw [hl] at hc
      simp only [List.head?_cons, Option.some.injEq] at hc
      refine ⟨cs, ?_⟩
      show (toSQLBuild q uid).conds = Cond.userId 1 :: cs
      rw [hl, hc]
  rw [hcs, List.all_cons]
  have hargs : argAt (toSQL q uid).2 1 = some (SqlArg.int uid) := by
    show ((toSQLBuild q uid).args).get? 0 = some (SqlArg.int uid)
    cases hal : (toSQLBuild q uid).args with
    | nil =>
      rw [hal] at ha
      exact absurd ha (by simp)
    | cons a as =>
      rw [hal] at ha
      simp only [List.head?_cons, Option.some.injEq] at ha
      simp [ha]
  have hfalse : evalCond (toSQL q uid).2 row (Cond.userId 1) = false := by
    simp only [evalCond, hargs]
    exact beq_eq_false_iff_ne.mpr h
  rw [hfalse]
  simp

/-- C3 witness: a row of tenant 2 never matches a tenant-1 compiled
predicate, here for the empty filter. -/
theorem tenant_isolation_witness :
    ((toSQL {} 1).1).head? = some (Cond.userId 1) ∧
    ((toSQL {} 1).2).head? = some (SqlArg.int 1) ∧
    matchesCompiled {} 1 { userID := 2 } = false :=
  tenant_isolation {} 1 { userID := 2 } (by decide)

/-! ## Claim C8 -/

theorem pairInv_addCond {b1 b2 : Build} {mk : Nat → Cond} {a1 a2 : SqlArg}
    (h : PairInv b1 b2) : PairInv (addCond b1 mk a1) (addCond b2 mk a2) :=
  ⟨by simp [addCond, h.1, h.2], by simp [addCond, h.2]⟩

theorem pairInv_addCondList {b1 b2 : Build} {mk : List Nat → Cond} {v1 v2 : List String}
    (hlen : v1.length = v2.length) (h : PairInv b1 b2) :
    PairInv (addCondList b1 mk v1) (addCondList b2 mk v2) :=
  ⟨by simp [addCondList, h.1, h.2, hlen], by simp [addCondList, h.2, hlen]⟩

theorem pairInv_iteAdd {c1 c2 : Prop} [Decidable c1] [Decidable c2] (hc : c1 ↔ c2)
    {b1 b2 : Build} {mk : Nat → Cond} {a1 a2 : SqlArg} (h : PairInv b1 b2) :
    PairInv (if c1 then addCond b1 mk a1 else b1) (if c2 then addCond b2 mk a2 else b2) := by
  by_cases hc1 : c1
  · rw [if_pos hc1, if_pos (hc.mp hc1)]
    exact pairInv_addCond h
  · rw [if_neg hc1, if_neg (fun h2 => hc1 (hc.mpr h2))]
    exact h

theorem pairInv_iteAddList {c1 c2 : Prop} [Decidable c1] [Decidable c2] (hc : c1 ↔ c2)
    {b1 b2 : Build} {mk : List Nat → Cond} {v1 v2 : List String}
    (hlen : v1.length = v2.length) (h : PairInv b1 b2) :
    PairInv (if c1 then addCondList b1 mk v1 else b1)
      (if c2 then addCondList b2 mk v2 else b2) := by
  by_cases hc1 : c1
  · rw [if_pos hc1, if_pos (hc.mp hc1)]
    exact pairInv_addCondList hlen h
  · rw [if_neg hc1, if_neg (fun h2 => hc1 (hc.mpr h2))]
    exact h

theorem pairInv_addTimeCond {b1 b2 : Build} {mk : Nat → Cond} {o1 o2 : Option Int}
    (ho : o1.isSome = o2.isSome) (h : PairInv b1 b2) :
    PairInv (addTimeCond b1 mk o1) (addTimeCond b2 mk o2) := by
  cases o1 with
  | none =>
    cases o2 with
    | none => exact h
    | some t => simp [Option.isSome] at ho
  | some t =>
    cases o2 with
    | none => simp [Option.isSome] at ho
    | some t2 => exact pairInv_addCond h

theorem boolIff {a b : Bool} (h : a = b) : (a = true) ↔ (b = true) := by rw [h]

theorem toSQLBuild_pairInv (q1 q2 : QueryRequest) (uid1 uid2 : Int)
    (h : shape q1 = shape q2) : PairInv (toSQLBuild q1 uid1) (toSQLBuild q2 uid2) := by
  have e01 := congrArg QShape.hasLevel h
  have e02 := congrArg QShape.hasSource h
  have e03 := congrArg QShape.hasService h
  have e04 := congrArg QShape.nLevels h
  have e05 := congrArg QShape.nSources h
  have e06 := congrArg QShape.nServices h
  have e07 := congrArg QShape.hasExLevel h
  have e08 := congrArg QShape.nExLevels h
  have e09 := congrArg QShape.hasExSource h
  have e10 := congrArg QShape.nExSources h
  have e11 := congrArg QShape.hasMsgC h
  have e12 := congrArg QShape.hasMsgNC h
  have e13 := congrArg QShape.hasStart h
  have e14 := congrArg QShape.hasEnd h
  simp only [shape] at e01 e02 e03 e04 e05 e06 e07 e08 e09 e10 e11 e12 e13 e14
  unfold toSQLBuild
  simp only []
  apply pairInv_addTimeCond e14
  apply pairInv_addTimeCond e13
  apply pairInv_iteAdd (boolIff e12)
  apply pairInv_iteAdd (boolIff e11)
  apply pairInv_iteAddList (by rw [e10]) e10
  apply pairInv_iteAdd (boolIff e09)
  apply pairInv_iteAddList (by rw [e08]) e08
  apply pairInv_iteAdd (boolIff e07)
  apply pairInv_iteAddList (by rw [e06]) e06
  apply pairInv_iteAddList (by rw [e05]) e05
  apply pairInv_iteAddList (by rw [e04]) e04
  apply pairInv_iteAdd (boolIff e03)
  apply pairInv_iteAdd (boolIff e02)
  apply pairInv_iteAdd (boolIff e01)
  apply pairInv_addCond
  exact ⟨rfl, rfl⟩

/-- C8: the compiled predicate references its bound arguments through the
consecutive placeholders `$1 .. $n` where `n` is the length of the
argument list, and the rendered condition text is a function of the
filter's shape alone — no filter value is ever interpolated into it. -/
theorem query_compiler_parameterized (q : QueryRequest) (uid : Int) :
    idxsOf (toSQL q uid).1 = List.range' 1 ((toSQL q uid).2.length) ∧
    (∀ q2 uid2, shape q2 = shape q →
      ((toSQL q2 uid2).1).map renderCond = ((toSQL q uid).1).map renderCond) := by
  refine ⟨(buildInv_toSQLBuild q uid).1, ?_⟩
  intro q2 uid2 hs
  exact congrArg (List.map renderCond) (toSQLBuild_pairInv q2 q uid2 uid hs).1

/-- C8 witness: two filters of the same shape but different values and
tenants compile to the same condition text, and the placeholders of a
concrete filter enumerate its argument list. -/
theorem query_compiler_parameterized_witness :
    idxsOf (toSQL { level := "ERROR", messageContains := "disk" } 7).1 =
      List.range' 1 ((toSQL { level := "ERROR", messageContains := "disk" } 7).2.length) ∧
    ((toSQL { level := "INFO", messageContains := "x" } 9).1).map renderCond =
      ((toSQL { level := "ERROR", messageContains := "disk" } 7).1).map renderCond :=
  ⟨(query_compiler_parameterized { level := "ERROR", messageContains := "disk" } 7).1,
   (query_compiler_parameterized { level := "ERROR", messageContains := "disk" } 7).2
     { level := "INFO", messageContains := "x" } 9 (by decide)⟩

/-! ## Claim C4 -/

/-- C4: a delivered message whose persistence handler fails is not
acknowledged and stays in the pending list, and the read loop still
processes every delivered message (each position of the result list is the
independent processing of that message). -/
theorem handler_error_leaves_pending (um : String → Option LogEntry)
    (hd : LogEntry → Except String Unit) (msgs : List QueueMessage)
    (i : Nat) (m : QueueMessage) (s : String) (entry : LogEntry) (e : String)
    (hm : msgs.get? i = some m) (hs : m.log = some s) (hu : um s = some entry)
    (he : hd entry = .error e) :
    (processMessage um hd m).acked = false ∧
    m ∈ pendingAfter um hd msgs ∧
    (consumeResults um hd msgs).length = msgs.length ∧
    (∀ j m', msgs.get? j = some m' →
      (consumeResults um hd msgs).get? j = some (processMessage um hd m')) := by
  have hp : processMessage um hd m =
      ⟨false, some entry, .error ("handler failed: " ++ e)⟩ := by
    simp [processMessage, hs, hu, he]
  refine ⟨by rw [hp], ?_, by simp [consumeResults], ?_⟩
  · unfold pendingAfter
    apply List.mem_filter.mpr
    refine ⟨List.get?_mem hm, ?_⟩
    rw [hp]
    rfl
  · intro j m' hj
    rw [List.get?_eq_getElem?] at hj
    simp [consumeResults, List.getElem?_map, hj]

/-- C4 witness: with a storage handler that fails, the first of two
delivered messages stays pending and both messages are processed. -/
theorem handler_error_leaves_pending_witness :
    (processMessage (fun _ => some {}) (fun _ => .error "db down")
      ⟨"1-0", some "{}"⟩).acked = false ∧
    (⟨"1-0", some "{}"⟩ : QueueMessage) ∈ pendingAfter (fun _ => some {})
      (fun _ => .error "db down") [⟨"1-0", some "{}"⟩, ⟨"1-1", some "{}"⟩] ∧
    (consumeResults (fun _ => some {}) (fun _ => .error "db down")
      [⟨"1-0", some "{}"⟩, ⟨"1-1", some "{}"⟩]).length =
      ([⟨"1-0", some "{}"⟩, ⟨"1-1", some "{}"⟩] : List QueueMessage).length ∧
    (∀ j m', ([⟨"1-0", some "{}"⟩, ⟨"1-1", some "{}"⟩] : List QueueMessage).get? j = some m' →
      (consumeResults (fun _ => some {}) (fun _ => .error "db down")
        [⟨"1-0", some "{}"⟩, ⟨"1-1", some "{}"⟩]).get? j =
        some (processMessage (fun _ => some {}) (fun _ => .error "db down") m')) :=
  handler_error_leaves_pending (fun _ => some {}) (fun _ => .error "db down")
    [⟨"1-0", some "{}"⟩, ⟨"1-1", some "{}"⟩] 0 ⟨"1-0", some "{}"⟩ "{}" {} "db down"
    rfl rfl rfl rfl

/-! ## Claim C6 -/

/-- C6: a delivered message with a missing `log` field or an
undeserializable payload is acknowledged immediately and an error is
returned; the persistence handler is never invoked for it, so the message
is dropped rather than retried and never reaches storage or a client. -/
theorem malformed_message_dropped (um : String → Option LogEntry)
    (hd : LogEntry → Except String Unit) (m : QueueMessage)
    (hbad : m.log = none ∨ ∃ s, m.log = some s ∧ um s = none) :
    (processMessage um hd m).acked = true ∧
    (processMessage um hd m).handled = none ∧
    (processMessage um hd m).result ≠ .ok () := by
  rcases hbad with hb | ⟨s, hs, hu⟩
  · simp [processMessage, hb]
  · simp [processMessage, hs, hu]

/-- C6 witness: a message without a `log` field, and one whose payload the
decoder rejects, are both acked, unhandled, and reported as errors. -/
theorem malformed_message_dropped_witness :
    ((processMessage (fun _ => none) (fun _ => .ok ()) ⟨"1-0", none⟩).acked = true ∧
     (processMessage (fun _ => none) (fun _ => .ok ()) ⟨"1-0", none⟩).handled = none ∧
     (processMessage (fun _ => none) (fun _ => .ok ()) ⟨"1-0", none⟩).result ≠ .ok ()) ∧
    ((processMessage (fun _ => none) (fun _ => .ok ()) ⟨"1-1", some "notjson"⟩).acked = true ∧
     (processMessage (fun _ => none) (fun _ => .ok ()) ⟨"1-1", some "notjson"⟩).handled = none ∧
     (processMessage (fun _ => none) (fun _ => .ok ()) ⟨"1-1", some "notjson"⟩).result ≠ .ok ()) :=
  ⟨malformed_message_dropped (fun _ => none) (fun _ => .ok ()) ⟨"1-0", none⟩ (Or.inl rfl),
   malformed_message_dropped (fun _ => none) (fun _ => .ok ()) ⟨"1-1", some "notjson"⟩
     (Or.inr ⟨"notjson", rfl, rfl⟩)⟩

/-! ## Claims C5 and C2 -/

theorem batchScan_all_valid (uid now : Int) (rs : List IngestRequest)
    (h : ∀ r ∈ rs, validateIngest r = .ok ()) (k : Nat) :
    batchScan uid now k rs = (rs.map (fun r => stampUser uid (toLogEntry now r)), []) := by
  induction rs generalizing k with
  | nil => rfl
  | cons r rs ih =>
    have hr : validateIngest r = .ok () := h r (by simp)
    have ht : ∀ x ∈ rs, validateIngest x = .ok () := fun x hx => h x (by simp [hx])
    simp [batchScan, ih ht (k + 1), hr]

theorem batchScan_mem_error (uid now : Int) (rs : List IngestRequest) :
    ∀ (k i : Nat) (r : IngestRequest) (e : String),
      rs.get? i = some r → validateIngest r = .error e →
      ("Log " ++ toString (k + i) ++ ": " ++ e) ∈ (batchScan uid now k rs).2 := by
  induction rs with
  | nil =>
    intro k i r e hi _
    simp at hi
  | cons hd tl ih =>
    intro k i r e hi he
    cases i with
    | zero =>
      simp only [List.get?_cons_zero, Option.some.injEq] at hi
      subst hi
      simp [batchScan, he]
    | succ n =>
      simp only [List.get?_cons_succ] at hi
      have hmem := ih (k + 1) n r e hi he
      have harr : k + 1 + n = k + (n + 1) := by omega
      rw [harr] at hmem
      cases hv : validateIngest hd with
      | error e2 =>
        simp only [batchScan, hv]
        exact List.mem_cons_of_mem _ hmem
      | ok u =>
        simp only [batchScan, hv]
        exact hmem

/-- C5: a batch (within the size bound) containing an invalid item is
rejected whole with HTTP 400 and a per-item error list naming the
offending index, and nothing — not even the valid items — is published or
persisted. -/
theorem batch_validation_all_or_nothing (uid : Int) (breq : BatchIngestRequest)
    (now : Int) (pubOk : Bool) (i : Nat) (r : IngestRequest) (e : String)
    (hlen : breq.logs.length ≤ 1000)
    (hi : breq.logs.get? i = some r) (he : validateIngest r = .error e) :
    (ingestBatch (some uid) (some breq) now pubOk).1 = [] ∧
    (ingestBatch (some uid) (some breq) now pubOk).2.code = 400 ∧
    (ingestBatch (some uid) (some breq) now pubOk).2.validationErrors =
      (batchScan uid now 0 breq.logs).2 ∧
    ("Log " ++ toString i ++ ": " ++ e) ∈
      (ingestBatch (some uid) (some breq) now pubOk).2.validationErrors := by
  have hmem0 := batchScan_mem_error uid now breq.logs 0 i r e hi he
  rw [Nat.zero_add] at hmem0
  have hne : (batchScan uid now 0 breq.logs).2 ≠ [] := fun h0 => by
    rw [h0] at hmem0
    simp at hmem0
  have hilt : i < breq.logs.length := (List.get?_eq_some.mp hi).1
  have hlen0 : ¬ breq.logs.length = 0 := by omega
  have hnotbig : ¬ 1000 < breq.logs.length := by omega
  simp only [ingestBatch]
  rw [if_neg hlen0, if_neg hnotbig, if_pos hne]
  exact ⟨rfl, rfl, rfl, hmem0⟩

/-- C5 witness: in a three-item batch whose middle item has an invalid
level, nothing is enqueued, the reply is 400, and the error list names
index 1. -/
theorem batch_validation_all_or_nothing_witness :
    (ingestBatch (some 1) (some { logs :=
      [{ source := "s", level := "INFO", message := "a" },
       { source := "s", level := "BAD", message := "b" },
       { source := "s", level := "WARN", message := "c" }] }) 0 true).1 = [] ∧
    (ingestBatch (some 1) (some { logs :=
      [{ source := "s", level := "INFO", message := "a" },
       { source := "s", level := "BAD", message := "b" },
       { source := "s", level := "WARN", message := "c" }] }) 0 true).2.code = 400 ∧
    (ingestBatch (some 1) (some { logs :=
      [{ source := "s", level := "INFO", message := "a" },
       { source := "s", level := "BAD", message := "b" },
       { source := "s", level := "WARN", message := "c" }] }) 0 true).2.validationErrors =
      (batchScan 1 0 0
        [{ source := "s", level := "INFO", message := "a" },
         { source := "s", level := "BAD", message := "b" },
         { source := "s", level := "WARN", message := "c" }]).2 ∧
    ("Log " ++ toString 1 ++ ": " ++ "invalid log level: BAD") ∈
      (ingestBatch (some 1) (some { logs :=
        [{ source := "s", level := "INFO", message := "a" },
         { source := "s", level := "BAD", message := "b" },
         { source := "s", level := "WARN", message := "c" }] }) 0 true).2.validationErrors :=
  batch_validation_all_or_nothing 1
    { logs := [{ source := "s", level := "INFO", message := "a" },
               { source := "s", level := "BAD", message := "b" },
               { source := "s", level := "WARN", message := "c" }] } 0 true 1
    { source := "s", level := "BAD", message := "b" } "invalid log level: BAD"
    (by decide) rfl rfl

/-- C2: a validated single or batch ingest request results in exactly one
queue append of the canonicalized, tenant-stamped entries (timestamp
defaulted, created_at stamped) and a 202 "queued" reply — no direct
database insert happens on this path; the Processing Consumer persists
later. -/
theorem ingest_enqueues_canonicalized (uid : Int) (req : IngestRequest)
    (breq : BatchIngestRequest) (now : Int)
    (h1 : validateIngest req = .ok ())
    (h2 : ∀ r ∈ breq.logs, validateIngest r = .ok ())
    (h3 : breq.logs ≠ []) (h4 : breq.logs.length ≤ 1000) :
    ingestLog (some uid) (some req) now true =
      ([Effect.publishQueue [stampUser uid (toLogEntry now req)]],
       { code := 202, status := "queued" }) ∧
    ingestBatch (some uid) (some breq) now true =
      ([Effect.publishQueue (breq.logs.map (fun r => stampUser uid (toLogEntry now r)))],
       { code := 202, status := "queued" }) := by
  constructor
  · simp [ingestLog, h1]
  · have hscan := batchScan_all_valid uid now breq.logs h2 0
    have hlen0 : ¬ breq.logs.length = 0 := fun h0 => h3 (List.length_eq_zero.mp h0)
    have hnotbig : ¬ 1000 < breq.logs.length := by omega
    simp only [ingestBatch]
    rw [if_neg hlen0, if_neg hnotbig]
    simp [hscan]

/-- C2 witness: one valid record (lower-case level, no timestamp) is
enqueued in canonical form, singly and as a batch of one. -/
theorem ingest_enqueues_canonicalized_witness :
    ingestLog (some 1) (some { source := "svc-a", level := "error", message := "m" }) 0 true =
      ([Effect.publishQueue
          [stampUser 1 (toLogEntry 0 { source := "svc-a", level := "error", message := "m" })]],
       { code := 202, status := "queued" }) ∧
    ingestBatch (some 1)
        (some { logs := [{ source := "svc-a", level := "error", message := "m" }] }) 0 true =
      ([Effect.publishQueue
          ([{ source := "svc-a", level := "error", message := "m" }].map
            (fun r => stampUser 1 (toLogEntry 0 r)))],
       { code := 202, status := "queued" }) :=
  ingest_enqueues_canonicalized 1 { source := "svc-a", level := "error", message := "m" }
    { logs := [{ source := "svc-a", level := "error", message := "m" }] } 0
    (by rfl)
    (by
      intro r hr
      simp only [List.mem_singleton] at hr
      subst hr
      rfl)
    (by decide) (by decide)

/-! ## Claim C1 -/

/-- C1: evaluating `DeleteAPIKey` at a state with one active, cached key.
The deletion replies 200 and the key row is deactivated, but the cache
invalidation was only spawned asynchronously: in the interleaving where
the goroutine has not yet run when the response returns, the very next
validation with the deleted key still succeeds from the stale cache
(within its TTL); only after the deferred invalidation executes does
validation fail.  This contradicts the claimed guarantee that invalidation
takes effect before the deletion response. -/
theorem deleteAPIKey_async_invalidation_gap :
    (deleteAPIKey demoState 1 1).2.2.code = 200 ∧
    (∀ k ∈ (deleteAPIKey demoState 1 1).1.keys, k.isActive = false) ∧
    (apiKeyAuth (deleteAPIKey demoState 1 1).1 demoKey).1 = AuthOutcome.authorized 1 ∧
    (deleteAPIKey demoState 1 1).2.1 = [Deferred.invalidateKey demoKey] ∧
    (apiKeyAuth (runDeferred (deleteAPIKey demoState 1 1).1 (deleteAPIKey demoState 1 1).2.1)
      demoKey).1 = AuthOutcome.unauthorized := by
  refine ⟨rfl, ?_, rfl, rfl, rfl⟩
  decide

/-! ## Claim C10 -/

theorem stringMk_length (l : List Char) : (String.mk l).length = l.length := rfl

theorem hexFold_length (bytes : List Nat) :
    (bytes.foldr (fun b acc => hexDigit (b / 16) :: hexDigit (b % 16) :: acc) []).length =
      2 * bytes.length := by
  induction bytes with
  | nil => rfl
  | cons b bs ih =>
    simp only [List.foldr_cons, List.length_cons, ih]
    omega

theorem apiKeyString_length (bytes : List Nat) (h : bytes.length = 32) :
    (apiKeyString bytes).length = 68 := by
  have h1 : (hexEncode bytes).length = 64 := by
    unfold hexEncode
    rw [stringMk_length, hexFold_length, h]
  unfold apiKeyString
  rw [String.length_append, h1]
  decide

theorem goMask_spec (s : String) (h : s.length = 68) :
    (goMask s).length = 15 ∧ goMask s ≠ s := by
  have hd : s.data.length = 68 := h
  have h1 : (⟨s.data.take 8⟩ : String).length = 8 := by
    rw [stringMk_length, List.length_take, hd]
    decide
  have h2 : (⟨s.data.drop (s.data.length - 4)⟩ : String).length = 4 := by
    rw [stringMk_length, List.length_drop, hd]
  have hlen : (goMask s).length = 15 := by
    unfold goMask
    rw [String.length_append, String.length_append, h1, h2]
    decide
  refine ⟨hlen, fun heq => ?_⟩
  have h2 := congrArg String.length heq
  rw [hlen, h] at h2
  simp at h2

/-- C10: the key listing returns only masked keys — first 8 characters,
`"..."`, last 4 — and for every key produced by `CreateAPIKey` (the
68-character `lak_`+hex form) the masking indices are in bounds and the
masked string never equals the stored key. -/
theorem api_keys_listing_masked (ks : List APIKeyRec)
    (hk : ∀ k ∈ ks, ∃ bytes, bytes.length = 32 ∧ k.apiKey = apiKeyString bytes) :
    ((getAPIKeysMasked ks).map APIKeyResponse.apiKey = ks.map fun k => goMask k.apiKey) ∧
    ∀ k ∈ ks, k.apiKey.length = 68 ∧ 8 ≤ k.apiKey.length ∧ 4 ≤ k.apiKey.length ∧
      (goMask k.apiKey).length = 15 ∧ goMask k.apiKey ≠ k.apiKey := by
  constructor
  · simp [getAPIKeysMasked]
  · intro k hkm
    obtain ⟨bytes, hb, hkey⟩ := hk k hkm
    have hlen : k.apiKey.length = 68 := by
      rw [hkey]
      exact apiKeyString_length bytes hb
    obtain ⟨h15, hne⟩ := goMask_spec k.apiKey hlen
    exact ⟨hlen, by omega, by omega, h15, hne⟩

/-- C10 witness: the listing of one generated key (32 zero bytes) is its
masked form, in bounds and different from the stored key. -/
theorem api_keys_listing_masked_witness :
    ((getAPIKeysMasked [⟨1, 1, apiKeyString (List.replicate 32 0), "ci", true⟩]).map
        APIKeyResponse.apiKey =
      [(⟨1, 1, apiKeyString (List.replicate 32 0), "ci", true⟩ : APIKeyRec)].map
        fun k => goMask k.apiKey) ∧
    ∀ k ∈ [(⟨1, 1, apiKeyString (List.replicate 32 0), "ci", true⟩ : APIKeyRec)],
      k.apiKey.length = 68 ∧ 8 ≤ k.apiKey.length ∧ 4 ≤ k.apiKey.length ∧
      (goMask k.apiKey).length = 15 ∧ goMask k.apiKey ≠ k.apiKey :=
  api_keys_listing_masked [⟨1, 1, apiKeyString (List.replicate 32 0), "ci", true⟩]
    (by
      intro k hkm
      simp only [List.mem_singleton] at hkm
      subst hkm
      exact ⟨List.replicate 32 0, rfl, rfl⟩)

end LogBuilder
